import Mathlib

/-!
Shallow embedding of `concert_service_turtlesim/scripts/turtle_herder.py`.

The herder keeps `self.turtles : List String` (the Resource Registry), and
serves two operations, `_spawn_turtle_service` and `_kill_turtle_service`,
each of which makes one blocking backend call whose outcome we model as a
`BackendOutcome`.  Replies, visibility (gateway flip) calls and lock releases
are recorded as an event trace.  `_send_flip_rules_request` is embedded as a
pure function from the resource name and cancel flag to the request it sends.
-/

namespace TurtleHerder

/-- Outcome of a blocking rospy service call, as discriminated by the
except clauses in the source: success, `rospy.ServiceException`
(communication failure) or `rospy.ROSInterruptException` (shutdown). -/
inductive BackendOutcome
  | ok
  | serviceError
  | interrupted
deriving DecidableEq, Repr

/-- Embedding of `gateway_msgs.ConnectionType` (the two values used). -/
inductive ConnectionType
  | subscriber
  | publisher
deriving DecidableEq, Repr

/-- Embedding of `gateway_msgs.Rule`. -/
structure Rule where
  node : String
  type : ConnectionType
  name : String
deriving DecidableEq, Repr

/-- Embedding of `gateway_msgs.RemoteRule`. -/
structure RemoteRule where
  gateway : String
  rule : Rule
deriving DecidableEq, Repr

/-- Embedding of `gateway_srvs.RemoteRequest`. -/
structure RemoteRequest where
  cancel : Bool
  remotes : List RemoteRule
deriving DecidableEq, Repr

/-- Embedding of `TurtleHerder._send_flip_rules_request` (lines 148-166): the
request handed to the gateway flip service.  The source builds two rules
(subscriber on `.../cmd_vel`, publisher on `.../pose`), then one request whose
`cancel` field is the given flag and whose `remotes` holds one `RemoteRule`
per rule with `gateway = name`.  Python's `deepcopy` is value semantics here. -/
def send_flip_rules_request (name : String) (cancel : Bool) : RemoteRequest :=
  let rule1 : Rule :=
    { node := ""
      type := ConnectionType.subscriber
      name := "/services/turtlesim/" ++ name ++ "/cmd_vel" }
  let rule2 : Rule :=
    { node := ""
      type := ConnectionType.publisher
      name := "/services/turtlesim/" ++ name ++ "/pose" }
  let rules := [rule1, rule2]
  { cancel := cancel
    remotes := rules.map (fun r => { gateway := name, rule := r }) }

/-- Observable actions of one spawn/kill execution, in program order:
a reply on the service pair server (spawn replies carry a name, kill replies
carry none), a call of `_send_flip_rules_request` with its two arguments, and
a release of the operation's lock. -/
inductive Event
  | reply (name : Option String)
  | flip (name : String) (cancel : Bool)
  | lockRelease
deriving DecidableEq, Repr

/-- Result of one operation: the new `self.turtles` plus the event trace.
An execution that dies on an uncaught Python exception has a trace without
`Event.lockRelease`. -/
structure OpOutput where
  turtles : List String
  events : List Event
deriving DecidableEq, Repr

/-- Embedding of the suffix-search loop of `_spawn_turtle_service`
(lines 120-124): starting at `count`, return the first extension
`"_" ++ str(count)` making `base ++ extension` free in `turtles`.
The Python while loop terminates because distinct counters print to distinct
strings and `turtles` is finite; here the same argument shows a fuel of
`turtles.length + 1` is never exhausted (`nameExtensionLoop_eq`). -/
def nameExtensionLoop (base : String) (turtles : List String) (count : Nat) :
    Nat → String
  | 0 => "_" ++ Nat.repr count
  | fuel + 1 =>
    if base ++ "_" ++ Nat.repr count ∈ turtles then
      nameExtensionLoop base turtles (count + 1) fuel
    else "_" ++ Nat.repr count

/-- Unique-name computation of `_spawn_turtle_service` (lines 118-125):
the requested name itself when free, otherwise the requested name with the
first free `_k` suffix appended. -/
def disambiguate (base : String) (turtles : List String) : String :=
  if base ∈ turtles then
    base ++ nameExtensionLoop base turtles 0 (turtles.length + 1)
  else base

/-- Embedding of `TurtleHerder._spawn_turtle_service` (lines 110-146).
The randomized pose arguments of the internal spawn request do not influence
the registry, the reply name or the flip call, so they are not modelled.
On success the final name is appended and replied; on `ServiceException` the
handler falls through with `name = ''`, so it still replies (empty name) and
still calls `_send_flip_rules_request('', cancel=False)`; on
`ROSInterruptException` it releases the lock and returns. -/
def spawn_turtle_service (turtles : List String) (msgName : String)
    (backend : BackendOutcome) : OpOutput :=
  let name := disambiguate msgName turtles
  match backend with
  | .ok =>
      { turtles := turtles ++ [name]
        events := [.reply (some name), .flip name false, .lockRelease] }
  | .serviceError =>
      { turtles := turtles
        events := [.reply (some ""), .flip "" false, .lockRelease] }
  | .interrupted =>
      { turtles := turtles, events := [.lockRelease] }

/-- Embedding of `TurtleHerder._kill_turtle_service` (lines 87-108).
On backend success the handler runs `self.turtles.remove(msg.name)`: when the
name is present this removes its first occurrence and the handler goes on to
reply, flip (cancel) and release; when the name is absent, `list.remove`
raises `ValueError`, which no except clause catches, so the handler dies with
no reply, no flip call and the lock still held.  On `ServiceException` the
handler falls through: registry untouched, but it still replies and still
calls `_send_flip_rules_request(msg.name, cancel=True)`.  On
`ROSInterruptException` it releases the lock and returns. -/
def kill_turtle_service (turtles : List String) (msgName : String)
    (backend : BackendOutcome) : OpOutput :=
  match backend with
  | .ok =>
      if msgName ∈ turtles then
        { turtles := turtles.erase msgName
          events := [.reply none, .flip msgName true, .lockRelease] }
      else
        { turtles := turtles, events := [] }
  | .serviceError =>
      { turtles := turtles
        events := [.reply none, .flip msgName true, .lockRelease] }
  | .interrupted =>
      { turtles := turtles, events := [.lockRelease] }

/-- Embedding of `TurtleHerder.shutdown` (lines 176-183), returning the list
of names the internal kill client is called with: the loop issues one destroy
per registry entry in list (= insertion) order and breaks quietly on the first
call that raises (`ServiceException` or `ROSInterruptException`, both mapped
to `destroyOk name = false`); the failing call itself was issued. -/
def shutdown (turtles : List String) (destroyOk : String → Bool) :
    List String :=
  match turtles with
  | [] => []
  | name :: rest =>
    if destroyOk name then name :: shutdown rest destroyOk
    else [name]

/-- One request arriving at either relay endpoint, with its backend outcome. -/
inductive Op
  | spawn (name : String) (backend : BackendOutcome)
  | kill (name : String) (backend : BackendOutcome)
deriving DecidableEq, Repr

/-- Registry after dispatching one operation. -/
def applyOp (turtles : List String) : Op → List String
  | .spawn name b => (spawn_turtle_service turtles name b).turtles
  | .kill name b => (kill_turtle_service turtles name b).turtles

/-- Registry reached from the empty registry by a sequence of operations. -/
def runOps (ops : List Op) : List String :=
  ops.foldl applyOp []

/-- Arguments of the `_send_flip_rules_request` calls in a trace. -/
def flipCalls (events : List Event) : List (String × Bool) :=
  events.filterMap fun e =>
    match e with
    | .flip n c => some (n, c)
    | _ => none

/-- Payloads of the replies in a trace. -/
def replyCalls (events : List Event) : List (Option String) :=
  events.filterMap fun e =>
    match e with
    | .reply n => some n
    | _ => none

/-- Names delivered in spawn replies in a trace. -/
def repliedNames (events : List Event) : List String :=
  events.filterMap fun e =>
    match e with
    | .reply (some s) => some s
    | _ => none

/-- Names replied by `n` consecutive spawns of the same requested name, each
with a successful backend call, in request order. -/
def successfulSpawnNames (base : String) (turtles : List String) :
    Nat → List String
  | 0 => []
  | n + 1 =>
    let out := spawn_turtle_service turtles base .ok
    repliedNames out.events ++ successfulSpawnNames base out.turtles n

/-! Decimal printing facts.  `str(count)` in the Python loop is decimal
printing, embedded as `Nat.repr`.  The loop's termination and the freshness
of its result rest on distinct counters printing to distinct strings, proved
here by decoding the digit string back to the number. -/

/-- Numeric value of a decimal digit character. -/
def digitVal (c : Char) : Nat := c.toNat - 48

/-- Decimal digit list of a natural number, most significant first; a simple
structurally-specified companion of core's fuelled `Nat.toDigitsCore`. -/
def decDigits (n : Nat) : List Char :=
  if n < 10 then [Nat.digitChar n]
  else decDigits (n / 10) ++ [Nat.digitChar (n % 10)]
termination_by n
decreasing_by omega

/-- Value of a decimal digit string, most significant digit first. -/
def decodeDigits (l : List Char) : Nat :=
  l.foldl (fun a c => 10 * a + digitVal c) 0

theorem digitVal_digitChar : ∀ d < 10, digitVal (Nat.digitChar d) = d := by
  decide

theorem decodeDigits_decDigits (n : Nat) : decodeDigits (decDigits n) = n := by
  induction n using Nat.strong_induction_on with
  | _ n ih =>
    rw [decDigits]
    by_cases h : n < 10
    · simp only [if_pos h, decodeDigits, List.foldl_cons, List.foldl_nil]
      rw [digitVal_digitChar n h]
      omega
    · rw [if_neg h]
      have hd : n / 10 < n := by omega
      have := ih (n / 10) hd
      simp only [decodeDigits, List.foldl_append, List.foldl_cons,
        List.foldl_nil] at this ⊢
      rw [this, digitVal_digitChar (n % 10) (by omega)]
      omega

theorem decDigits_injective : Function.Injective decDigits := by
  intro a b h
  rw [← decodeDigits_decDigits a, ← decodeDigits_decDigits b, h]

theorem toDigitsCore_eq_decDigits :
    ∀ (fuel n : Nat) (ds : List Char), n < fuel →
      Nat.toDigitsCore 10 fuel n ds = decDigits n ++ ds := by
  intro fuel
  induction fuel with
  | zero => omega
  | succ f ih =>
    intro n ds h
    rw [Nat.toDigitsCore]
    by_cases h10 : n / 10 = 0
    · rw [if_pos h10, decDigits, if_pos (by omega), Nat.mod_eq_of_lt (by omega)]
      simp
    · rw [if_neg h10, ih (n / 10) _ (by omega)]
      have hn : decDigits n = decDigits (n / 10) ++ [Nat.digitChar (n % 10)] := by
        rw [decDigits, if_neg (by omega)]
      rw [hn]
      simp

theorem natRepr_eq_decDigits (n : Nat) : Nat.repr n = (decDigits n).asString := by
  rw [Nat.repr, Nat.toDigits,
    toDigitsCore_eq_decDigits (n + 1) n [] (Nat.lt_succ_self n)]
  simp

theorem natRepr_injective : Function.Injective Nat.repr := by
  intro a b h
  rw [natRepr_eq_decDigits, natRepr_eq_decDigits, List.asString_inj] at h
  exact decDigits_injective h

/-! String-level helpers. -/

theorem string_append_right_inj (s : String) {t u : String}
    (h : s ++ t = s ++ u) : t = u := by
  have hd : s.data ++ t.data = s.data ++ u.data := by
    have := congrArg String.data h
    simpa using this
  exact String.ext (List.append_cancel_left hd)

/-- The candidate names tried by the loop are pairwise distinct. -/
theorem candidate_injective (base : String) :
    Function.Injective (fun k => base ++ "_" ++ Nat.repr k) := by
  intro j k h
  simp only at h
  rw [String.append_assoc, String.append_assoc] at h
  exact natRepr_injective (string_append_right_inj "_"
    (string_append_right_inj base h))

/-- A suffixed candidate is never the bare base name (it is longer). -/
theorem candidate_ne_base (base : String) (k : Nat) :
    base ++ "_" ++ Nat.repr k ≠ base := by
  intro h
  have := congrArg String.length h
  simp only [String.length_append] at this
  have h1 : ("_" : String).length = 1 := rfl
  omega

/-! Behaviour of the disambiguation loop. -/

/-- Pigeonhole: some candidate with counter at most `turtles.length` is free,
because distinct counters give distinct candidate strings. -/
theorem exists_fresh_candidate (base : String) (turtles : List String) :
    ∃ k, k ≤ turtles.length ∧ base ++ "_" ++ Nat.repr k ∉ turtles := by
  by_contra hall
  push_neg at hall
  have hnd : ((List.range (turtles.length + 1)).map
      (fun k => base ++ "_" ++ Nat.repr k)).Nodup :=
    (List.nodup_range _).map (candidate_injective base)
  have hsub : ((List.range (turtles.length + 1)).map
      (fun k => base ++ "_" ++ Nat.repr k)).toFinset ⊆ turtles.toFinset := by
    intro x hx
    rw [List.mem_toFinset] at hx ⊢
    obtain ⟨k, hk, rfl⟩ := List.mem_map.1 hx
    exact hall k (Nat.lt_succ_iff.1 (List.mem_range.1 hk))
  have h1 : ((List.range (turtles.length + 1)).map
      (fun k => base ++ "_" ++ Nat.repr k)).toFinset.card
      = turtles.length + 1 := by
    rw [List.toFinset_card_of_nodup hnd]
    simp
  have h2 := Finset.card_le_card hsub
  have h3 := turtles.toFinset_card_le
  omega

/-- The loop skips exactly the colliding counters: if the candidates at
`count, …, count + m - 1` are taken and the one at `count + m` is free, with
fuel to spare, the loop returns the extension for counter `count + m`. -/
theorem nameExtensionLoop_eq (base : String) (turtles : List String) :
    ∀ (m count fuel : Nat), m < fuel →
      (∀ j, j < m → base ++ "_" ++ Nat.repr (count + j) ∈ turtles) →
      base ++ "_" ++ Nat.repr (count + m) ∉ turtles →
      nameExtensionLoop base turtles count fuel = "_" ++ Nat.repr (count + m) := by
  intro m
  induction m with
  | zero =>
    intro count fuel hfuel hmem hfree
    obtain ⟨f, rfl⟩ : ∃ f, fuel = f + 1 := ⟨fuel - 1, by omega⟩
    rw [nameExtensionLoop, if_neg (by simpa using hfree)]
    simp
  | succ m ih =>
    intro count fuel hfuel hmem hfree
    obtain ⟨f, rfl⟩ : ∃ f, fuel = f + 1 := ⟨fuel - 1, by omega⟩
    have h0 : base ++ "_" ++ Nat.repr (count + 0) ∈ turtles := hmem 0 (by omega)
    rw [nameExtensionLoop, if_pos (by simpa using h0)]
    have hrec := ih (count + 1) f (by omega)
      (fun j hj => by
        have e : count + 1 + j = count + (j + 1) := by omega
        rw [e]
        exact hmem (j + 1) (by omega))
      (by
        have e : count + 1 + m = count + (m + 1) := by omega
        rw [e]
        exact hfree)
    have harg : count + 1 + m = count + (m + 1) := by omega
    rw [hrec, harg]

/-- The loop always returns an underscore-and-counter extension. -/
theorem nameExtensionLoop_shape (base : String) (turtles : List String) :
    ∀ (fuel count : Nat), ∃ k,
      nameExtensionLoop base turtles count fuel = "_" ++ Nat.repr k := by
  intro fuel
  induction fuel with
  | zero => intro count; exact ⟨count, rfl⟩
  | succ f ih =>
    intro count
    rw [nameExtensionLoop]
    by_cases h : base ++ "_" ++ Nat.repr count ∈ turtles
    · rw [if_pos h]
      exact ih (count + 1)
    · rw [if_neg h]
      exact ⟨count, rfl⟩

/-- A free requested name is returned unchanged. -/
theorem disambiguate_of_not_mem (base : String) (t : List String)
    (h : base ∉ t) : disambiguate base t = base := by
  rw [disambiguate, if_neg h]

/-- The name chosen by the spawn loop is never already in the registry. -/
theorem disambiguate_not_mem (base : String) (turtles : List String) :
    disambiguate base turtles ∉ turtles := by
  rw [disambiguate]
  by_cases hb : base ∈ turtles
  · rw [if_pos hb]
    obtain ⟨k0, hk0L, hk0⟩ := exists_fresh_candidate base turtles
    have hex : ∃ k, base ++ "_" ++ Nat.repr k ∉ turtles := ⟨k0, hk0⟩
    have hmle : Nat.find hex ≤ turtles.length :=
      le_trans (Nat.find_min' hex hk0) hk0L
    have hloop := nameExtensionLoop_eq base turtles (Nat.find hex) 0
      (turtles.length + 1) (by omega)
      (fun j hj => by
        have hj2 := Nat.find_min hex hj
        simpa using not_not.1 hj2)
      (by simpa using Nat.find_spec hex)
    rw [hloop, ← String.append_assoc]
    simpa using Nat.find_spec hex
  · rw [if_neg hb]
    exact hb

/-- The registry and replied name of a successful spawn, unfolded. -/
theorem spawn_ok_turtles (t : List String) (name : String) :
    (spawn_turtle_service t name .ok).turtles = t ++ [disambiguate name t] :=
  rfl

/-- The reply of a successful spawn carries the disambiguated name. -/
theorem spawn_ok_repliedNames (t : List String) (name : String) :
    repliedNames (spawn_turtle_service t name .ok).events
      = [disambiguate name t] :=
  rfl

/-- After `i` same-name spawns on top of `t ++ [base]`, the next spawn picks
the candidate with counter `i`. -/
theorem disambiguate_run (base : String) (t : List String) (i : Nat)
    (hfresh : ∀ k, base ++ "_" ++ Nat.repr k ∉ t) :
    disambiguate base
        (t ++ base :: (List.range i).map (fun j => base ++ "_" ++ Nat.repr j))
      = base ++ "_" ++ Nat.repr i := by
  set reg := t ++ base ::
    (List.range i).map (fun j => base ++ "_" ++ Nat.repr j) with hreg
  have hb : base ∈ reg := by
    rw [hreg]
    exact List.mem_append_right _ (List.mem_cons_self _ _)
  rw [disambiguate, if_pos hb]
  have hlen : reg.length = t.length + 1 + i := by
    rw [hreg]
    simp only [List.length_append, List.length_cons, List.length_map,
      List.length_range]
    omega
  have hloop := nameExtensionLoop_eq base reg i 0 (reg.length + 1)
    (by omega)
    (fun j hj => by
      rw [Nat.zero_add, hreg]
      refine List.mem_append_right _ (List.mem_cons_of_mem _ ?_)
      exact List.mem_map.2 ⟨j, List.mem_range.2 hj, rfl⟩)
    (by
      rw [Nat.zero_add, hreg]
      intro hmem
      rcases List.mem_append.1 hmem with h1 | h2
      · exact hfresh i h1
      · rcases List.mem_cons.1 h2 with h3 | h4
        · exact candidate_ne_base base i h3
        · obtain ⟨j, hj, hje⟩ := List.mem_map.1 h4
          have hji : j = i := candidate_injective base hje
          rw [List.mem_range] at hj
          omega)
  rw [hloop, ← String.append_assoc]
  simp

/-- Names replied by successful same-name spawns starting from a registry of
shape `t ++ base :: (first i candidates)`. -/
theorem successfulSpawnNames_aux (base : String) (t : List String)
    (hfresh : ∀ k, base ++ "_" ++ Nat.repr k ∉ t) :
    ∀ (n i : Nat),
      successfulSpawnNames base
          (t ++ base ::
            (List.range i).map (fun j => base ++ "_" ++ Nat.repr j)) n
        = (List.range' i n).map (fun j => base ++ "_" ++ Nat.repr j) := by
  intro n
  induction n with
  | zero => intro i; rfl
  | succ n ih =>
    intro i
    rw [successfulSpawnNames]
    simp only [spawn_ok_turtles, spawn_ok_repliedNames]
    rw [disambiguate_run base t i hfresh]
    have hstep : (t ++ base ::
          (List.range i).map (fun j => base ++ "_" ++ Nat.repr j))
          ++ [base ++ "_" ++ Nat.repr i]
        = t ++ base ::
          (List.range (i + 1)).map (fun j => base ++ "_" ++ Nat.repr j) := by
      simp [List.range_succ]
    rw [hstep, ih (i + 1)]
    simp [List.range'_succ]

/-- The full name sequence of `n` successful same-name spawns from a registry
free of the base name and of every candidate. -/
theorem successfulSpawnNames_eq (base : String) (t : List String) (n : Nat)
    (hn : 1 ≤ n) (hbase : base ∉ t)
    (hfresh : ∀ k, base ++ "_" ++ Nat.repr k ∉ t) :
    successfulSpawnNames base t n
      = base ::
        (List.range (n - 1)).map (fun k => base ++ "_" ++ Nat.repr k) := by
  obtain ⟨m, rfl⟩ : ∃ m, n = m + 1 := ⟨n - 1, by omega⟩
  rw [successfulSpawnNames]
  simp only [spawn_ok_turtles, spawn_ok_repliedNames]
  rw [disambiguate_of_not_mem base t hbase]
  have h0 : t ++ [base] = t ++ base ::
      (List.range 0).map (fun j => base ++ "_" ++ Nat.repr j) := by
    simp
  rw [h0, successfulSpawnNames_aux base t hfresh m 0]
  simp [List.range_eq_range']

/-! Registry invariant machinery. -/

/-- One dispatched operation preserves freedom from duplicates. -/
theorem applyOp_nodup (t : List String) (op : Op) (h : t.Nodup) :
    (applyOp t op).Nodup := by
  cases op with
  | spawn name b =>
    cases b with
    | ok =>
      simp only [applyOp, spawn_ok_turtles]
      rw [List.nodup_append]
      refine ⟨h, List.nodup_singleton _, fun a ha hb => ?_⟩
      rw [List.mem_singleton] at hb
      subst hb
      exact disambiguate_not_mem name t ha
    | serviceError => exact h
    | interrupted => exact h
  | kill name b =>
    cases b with
    | ok =>
      by_cases hm : name ∈ t
      · simp only [applyOp, kill_turtle_service, if_pos hm]
        exact h.erase name
      · simp only [applyOp, kill_turtle_service, if_neg hm]
        exact h
    | serviceError => exact h
    | interrupted => exact h

/-- Folding operations from a duplicate-free registry stays duplicate-free. -/
theorem foldl_applyOp_nodup (ops : List Op) :
    ∀ t : List String, t.Nodup → (ops.foldl applyOp t).Nodup := by
  induction ops with
  | nil => intro t h; exact h
  | cons op rest ih =>
    intro t h
    exact ih (applyOp t op) (applyOp_nodup t op h)

/-! Claim theorems. -/

/-- C1: starting from the empty registry, no sequence of spawn and kill
operations ever makes the Resource Registry (the turtles collection) contain
two equal names at the same time. -/
theorem registry_nodup_invariant (ops : List Op) : (runOps ops).Nodup :=
  foldl_applyOp_nodup ops [] List.nodup_nil

/-- C2 counterexample: a spawn whose backend create call fails still sends a
visibility-rule registration request (with the empty name), because the
handler falls through to the flip call; shown at the concrete input
`spawn("bob")` on the empty registry with a failing backend. -/
theorem spawn_failure_flip_counterexample :
    flipCalls (spawn_turtle_service [] "bob"
      BackendOutcome.serviceError).events ≠ [] := by
  decide

/-- C2 (amended): for every spawn whose backend create call fails, the
registry is left exactly in its pre-call state and the reply carries the
empty name, but one visibility-rule registration request is still sent, with
the empty string as resource name and cancel set to false. -/
theorem spawn_backend_failure_behavior (t : List String) (name : String) :
    (spawn_turtle_service t name BackendOutcome.serviceError).turtles = t ∧
    replyCalls (spawn_turtle_service t name
        BackendOutcome.serviceError).events = [some ""] ∧
    flipCalls (spawn_turtle_service t name
        BackendOutcome.serviceError).events = [("", false)] :=
  ⟨rfl, rfl, rfl⟩

/-- C3 counterexample: with registry `["bob"]` and a failing backend destroy
for `"carol"`, a visibility-rule cancellation call is sent, refuting the
claim that no visibility call happens on a failed kill. -/
theorem kill_failure_flip_counterexample :
    flipCalls (kill_turtle_service ["bob"] "carol"
      BackendOutcome.serviceError).events ≠ [] := by
  decide

/-- C3 (amended): a kill whose backend destroy call fails leaves the registry
unchanged, but one visibility-rule cancellation call for the requested name
is still sent to the Visibility Registrar. -/
theorem kill_backend_failure_behavior (t : List String) (name : String) :
    (kill_turtle_service t name BackendOutcome.serviceError).turtles = t ∧
    flipCalls (kill_turtle_service t name
        BackendOutcome.serviceError).events = [(name, true)] :=
  ⟨rfl, rfl⟩

/-- C4 counterexample: a kill whose backend destroy succeeds for a name not
in the registry (here `kill("carol")` on registry `["bob"]`) exits without
releasing its lock, because `self.turtles.remove` raises an uncaught
`ValueError`. -/
theorem kill_lock_leak_counterexample :
    Event.lockRelease ∉
      (kill_turtle_service ["bob"] "carol" BackendOutcome.ok).events := by
  decide

/-- C4 (amended): every spawn execution releases its lock on every exit path,
including interruption of the backend call; every kill execution releases its
lock on every exit path except the one where the backend destroy succeeds for
a name not in the registry, where the uncaught removal error leaves the lock
held. -/
theorem lock_release_paths (t : List String) (name : String)
    (b : BackendOutcome) :
    Event.lockRelease ∈ (spawn_turtle_service t name b).events ∧
    (Event.lockRelease ∈ (kill_turtle_service t name b).events ↔
      ¬(b = BackendOutcome.ok ∧ name ∉ t)) := by
  constructor
  · cases b <;> simp [spawn_turtle_service]
  · cases b with
    | ok =>
      by_cases hm : name ∈ t
      · simp [kill_turtle_service, hm]
      · simp [kill_turtle_service, hm]
    | serviceError => simp [kill_turtle_service]
    | interrupted => simp [kill_turtle_service]

/-- C5 counterexample: for `kill("carol")` with `"carol"` not in registry
`["bob"]` and a failing backend destroy, a visibility cancellation call is
still sent, refuting the claim that a kill of an absent name never calls the
Visibility Registrar. -/
theorem kill_absent_flip_counterexample :
    "carol" ∉ ["bob"] ∧
    flipCalls (kill_turtle_service ["bob"] "carol"
      BackendOutcome.serviceError).events ≠ [] := by
  decide

/-- C5 (amended): a kill for a name not in the registry leaves the registry
unchanged for every backend outcome, and sends no Visibility Registrar call
except when the backend destroy fails, in which case exactly one cancellation
call for that name is sent. -/
theorem kill_absent_name_behavior (t : List String) (name : String)
    (b : BackendOutcome) (h : name ∉ t) :
    (kill_turtle_service t name b).turtles = t ∧
    flipCalls (kill_turtle_service t name b).events =
      (if b = BackendOutcome.serviceError then [(name, true)] else []) := by
  cases b with
  | ok => simp [kill_turtle_service, h, flipCalls]
  | serviceError => exact ⟨rfl, rfl⟩
  | interrupted => exact ⟨rfl, rfl⟩

/-- C5 witness: the amended kill-for-absent-name theorem at the concrete
input `kill("carol")` on registry `["bob"]` with a successful destroy. -/
theorem kill_absent_name_behavior_witness :
    (kill_turtle_service ["bob"] "carol" BackendOutcome.ok).turtles
      = ["bob"] ∧
    flipCalls (kill_turtle_service ["bob"] "carol"
      BackendOutcome.ok).events = [] := by
  have h := kill_absent_name_behavior ["bob"] "carol" BackendOutcome.ok
    (by decide)
  exact ⟨h.1, h.2⟩

/-- C6: N consecutive successful spawns of the same requested base name, from
a registry containing neither the base nor any suffixed candidate, reply the
names base, base_0, …, base_(N-2) in request order; and the disambiguated
name is always the requested name with a suffix appended (empty, or an
underscore and a counter), never a rewritten prefix. -/
theorem spawn_name_sequence :
    (∀ (base : String) (t : List String) (n : Nat), 1 ≤ n → base ∉ t →
      (∀ k, base ++ "_" ++ Nat.repr k ∉ t) →
      successfulSpawnNames base t n
        = base ::
          (List.range (n - 1)).map (fun k => base ++ "_" ++ Nat.repr k)) ∧
    (∀ (base : String) (t : List String), ∃ ext,
      disambiguate base t = base ++ ext ∧
      (ext = "" ∨ ∃ k, ext = "_" ++ Nat.repr k)) := by
  constructor
  · exact successfulSpawnNames_eq
  · intro base t
    by_cases hb : base ∈ t
    · obtain ⟨k, hk⟩ := nameExtensionLoop_shape base t (t.length + 1) 0
      refine ⟨"_" ++ Nat.repr k, ?_, Or.inr ⟨k, rfl⟩⟩
      rw [disambiguate, if_pos hb, hk]
    · refine ⟨"", ?_, Or.inl rfl⟩
      rw [disambiguate_of_not_mem base t hb, String.append_empty]

/-- C6 witness: three successful spawns of `"x"` from the empty registry
reply `x`, `x_0`, `x_1`. -/
theorem spawn_name_sequence_witness :
    successfulSpawnNames "x" [] 3 = ["x", "x_0", "x_1"] := by
  have h := spawn_name_sequence.1 "x" [] 3 (by omega)
    (List.not_mem_nil _) (fun k => List.not_mem_nil _)
  rw [h]
  decide

/-- C7: each visibility update builds exactly two rules, a subscriber-side
(inbound) rule on channel `/services/turtlesim/<name>/cmd_vel` and a
publisher-side (outbound) rule on channel `/services/turtlesim/<name>/pose`,
and the single request sent applies the given cancel flag to both. -/
theorem flip_request_rules (name : String) (cancel : Bool) :
    (send_flip_rules_request name cancel).remotes.map
        (fun r => (r.rule.type, r.rule.name))
      = [(ConnectionType.subscriber,
          "/services/turtlesim/" ++ name ++ "/cmd_vel"),
         (ConnectionType.publisher,
          "/services/turtlesim/" ++ name ++ "/pose")] ∧
    (send_flip_rules_request name cancel).cancel = cancel :=
  ⟨rfl, rfl⟩

/-- C8: shutdown issues destroy calls for the registry entries in insertion
order; if every call succeeds it covers every entry, otherwise the calls are
exactly the entries up to and including the first failing one and iteration
stops there silently. -/
theorem shutdown_destroy_calls (t : List String) (destroyOk : String → Bool) :
    (shutdown t destroyOk = t ∧ ∀ n ∈ t, destroyOk n = true) ∨
    (∃ p n s, t = p ++ n :: s ∧ (∀ m ∈ p, destroyOk m = true) ∧
      destroyOk n = false ∧ shutdown t destroyOk = p ++ [n]) := by
  induction t with
  | nil => exact Or.inl ⟨rfl, by simp⟩
  | cons name rest ih =>
    by_cases hn : destroyOk name = true
    · rcases ih with ⟨h1, h2⟩ | ⟨p, n, s, hps, hp, hn2, hsd⟩
      · refine Or.inl ⟨?_, ?_⟩
        · rw [shutdown, if_pos hn, h1]
        · intro x hx
          rcases List.mem_cons.1 hx with rfl | hx2
          · exact hn
          · exact h2 x hx2
      · refine Or.inr ⟨name :: p, n, s, by rw [hps, List.cons_append],
          ?_, hn2, ?_⟩
        · intro x hx
          rcases List.mem_cons.1 hx with rfl | hx2
          · exact hn
          · exact hp x hx2
        · rw [shutdown, if_pos hn, hsd, List.cons_append]
    · refine Or.inr ⟨[], name, rest, rfl, by simp, by simpa using hn, ?_⟩
      rw [shutdown, if_neg hn]
      simp

/-- C9: a successful spawn's trace is exactly the reply carrying the final
name, then one visibility registration with cancel=false for that name, then
the lock release; a successful kill's trace is exactly the reply, then one
visibility call with cancel=true for the killed name, then the lock
release. -/
theorem success_event_order (t : List String) (name : String) :
    (spawn_turtle_service t name BackendOutcome.ok).events
      = [Event.reply (some (disambiguate name t)),
         Event.flip (disambiguate name t) false, Event.lockRelease] ∧
    (name ∈ t →
      (kill_turtle_service t name BackendOutcome.ok).events
        = [Event.reply none, Event.flip name true, Event.lockRelease]) := by
  refine ⟨rfl, fun h => ?_⟩
  simp [kill_turtle_service, h]

/-- C9 witness: the trace shapes at registry `["bob"]` for a successful spawn
of `"bob"` (final name `bob_0`) and a successful kill of `"bob"`. -/
theorem success_event_order_witness :
    (spawn_turtle_service ["bob"] "bob" BackendOutcome.ok).events
      = [Event.reply (some "bob_0"), Event.flip "bob_0" false,
         Event.lockRelease] ∧
    (kill_turtle_service ["bob"] "bob" BackendOutcome.ok).events
      = [Event.reply none, Event.flip "bob" true, Event.lockRelease] := by
  have h := success_event_order ["bob"] "bob"
  have e : disambiguate "bob" ["bob"] = "bob_0" := by decide
  exact ⟨by rw [h.1, e], h.2 (by decide)⟩

/-- C10: both remote rules in every request sent to the gateway flip service
carry the resource name itself in their gateway field. -/
theorem flip_request_gateway (name : String) (cancel : Bool) :
    (send_flip_rules_request name cancel).remotes.map RemoteRule.gateway
      = [name, name] :=
  rfl

end TurtleHerder
